import Mathlib

/-!
Shallow embedding of the two command-line tools of the gcp-helper repository:
`grant-viewer-access.py` (grant an IAM role to a principal across projects) and
`list-projects.py` (enumerate and filter projects).  Network calls are modelled
by passing the remote data (pages of the listing endpoint, per-project IAM
policies) as explicit inputs, and per-call failures by an explicit fault oracle.
-/

namespace GcpHelper

/-- One IAM binding as returned by the API: a role string and a member list. -/
structure Binding where
  role : String
  members : List String
  deriving DecidableEq

/-- An IAM policy's binding list (`policy.get('bindings', [])`). -/
abbrev Policy := List Binding

/-- A raw project record from one page of the cloud resource manager `list`
endpoint: `projectId`, `lifecycleState`, and the optional `name` and
`projectNumber` fields. -/
structure ApiProject where
  projectId : String
  lifecycleState : String
  name : Option String
  projectNumber : Option String
  deriving DecidableEq

/-- Inner loop of `get_all_projects` in `grant-viewer-access.py` on one response
page: keep `projectId` of each project whose `lifecycleState` is `ACTIVE`. -/
def activePageIds (page : List ApiProject) : List String :=
  (page.filter (fun p => p.lifecycleState == "ACTIVE")).map (fun p => p.projectId)

/-- The pagination loop of `get_all_projects`: append the active ids of each
page until no `nextPageToken` remains. -/
def collectActive (pages : List (List ApiProject)) : List String :=
  match pages with
  | [] => []
  | page :: rest => activePageIds page ++ collectActive rest

/-- `get_all_projects` in `grant-viewer-access.py`: collect active project ids
over all pages, then `sorted(projects)` (ascending, stable). -/
def get_all_projects (pages : List (List ApiProject)) : List String :=
  List.insertionSort (fun a b => a ≤ b) (collectActive pages)

/-- Python's `str.strip()`: drop whitespace characters from both ends. -/
def pyStrip (s : String) : String :=
  ⟨List.reverse (List.dropWhile Char.isWhitespace
    (List.reverse (List.dropWhile Char.isWhitespace s.data)))⟩

/-- Python's `str.lower()` on the ASCII range: lowercase every character. -/
def pyLower (s : String) : String :=
  ⟨s.data.map Char.toLower⟩

/-- `get_projects_from_file` in `grant-viewer-access.py`: `line.strip()` each
line, keep the result when it is non-empty (Python truthiness), in file order. -/
def get_projects_from_file (lines : List String) : List String :=
  (lines.map pyStrip).filter (fun l => l ≠ "")

/-- Scan of `check_permission`: does some binding for `role` list `member`? -/
def hasRole (policy : Policy) (member role : String) : Bool :=
  policy.any (fun b => b.role == role && b.members.contains member)

/-- Fault model for the three API calls one per-project task can make:
the `getIamPolicy` inside `check_permission`, the `getIamPolicy` re-read in
the grant block, and the `setIamPolicy` write. -/
structure Oracle where
  checkErr : Bool
  readErr : Bool
  writeErr : Bool
  deriving DecidableEq

/-- `check_permission`: `some` of the binding scan, or `none` when the policy
read raises (the error is logged and `None` is returned). -/
def check_permission (o : Oracle) (policy : Policy) (member role : String) :
    Option Bool :=
  if o.checkErr then none else some (hasRole policy member role)

/-- Lines 299-300 of `grant-viewer-access.py`: append `member` to the binding's
member list unless it is already present. -/
def addMember (b : Binding) (member : String) : Binding :=
  if b.members.contains member then b
  else { b with members := b.members ++ [member] }

/-- Lines 295-308 of `grant-viewer-access.py`: walk the bindings, merge `member`
into the first binding whose role matches (then `break`), and append a fresh
binding `{role, members := [member]}` when none matched. -/
def addBinding (policy : Policy) (member role : String) : Policy :=
  match policy with
  | [] => [{ role := role, members := [member] }]
  | b :: bs =>
    if b.role == role then addMember b member :: bs
    else b :: addBinding bs member role

/-- The four terminal per-project outcomes of `grant_iam_permission`. -/
inductive Status where
  | granted
  | already_granted
  | would_grant
  | failed
  deriving DecidableEq

/-- Result of one per-project task: its reported status, the remote policy
after the task, and whether a `setIamPolicy` call was issued. -/
structure GrantResult where
  status : Status
  policy : Policy
  writeCalled : Bool
  deriving DecidableEq

/-- `grant_iam_permission`: run `check_permission`; on `is True` report
`already_granted`; in dry-run or check-only mode report `would_grant`;
otherwise re-read the policy, merge the binding, and write it back, any
exception in that block yielding `failed`. -/
def grant_iam_permission (o : Oracle) (dry_run check_only : Bool)
    (policy : Policy) (member role : String) : GrantResult :=
  let has_permission := check_permission o policy member role
  if has_permission = some true then
    { status := .already_granted, policy := policy, writeCalled := false }
  else if dry_run || check_only then
    { status := .would_grant, policy := policy, writeCalled := false }
  else if o.readErr then
    { status := .failed, policy := policy, writeCalled := false }
  else if o.writeErr then
    { status := .failed, policy := policy, writeCalled := true }
  else
    { status := .granted, policy := addBinding policy member role,
      writeCalled := true }

/-- `process_projects_parallel`: every submitted project task runs to one
terminal result; the aggregation is order-insensitive, so the pool is modelled
as a map in input order, with per-project policies and faults supplied by
functions of the project id. -/
def process_projects (oF : String → Oracle) (pF : String → Policy)
    (dry_run check_only : Bool) (projects : List String) (member role : String) :
    List GrantResult :=
  projects.map (fun p => grant_iam_permission (oF p) dry_run check_only (pF p) member role)

/-- Number of results with the given status. -/
def statusCount (s : Status) (rs : List GrantResult) : Nat :=
  rs.countP (fun g => g.status == s)

/-- Lines 426-441 of `grant-viewer-access.py` `main`: an empty project set is
fatal (`sys.exit(1)`); in a run that is neither dry-run nor check-only, a
response whose lowercase form is not `yes` prints `Aborted.` and calls
`sys.exit(0)`; otherwise the projects are processed.  `Except.error` carries
the process exit code. -/
def main_flow (oF : String → Oracle) (pF : String → Policy)
    (dry_run check_only : Bool) (response : String)
    (projects : List String) (member role : String) :
    Except Nat (List GrantResult) :=
  if projects.isEmpty then .error 1
  else if !dry_run && !check_only then
    if pyLower response ≠ "yes" then .error 0
    else .ok (process_projects oF pF dry_run check_only projects member role)
  else .ok (process_projects oF pF dry_run check_only projects member role)

/-- Whether a run issued any `setIamPolicy` call. -/
def writesIssued : Except Nat (List GrantResult) → Bool
  | .error _ => false
  | .ok rs => rs.any (fun g => g.writeCalled)

/-- Python truthiness of an optional string command-line argument. -/
def truthy : Option String → Bool
  | none => false
  | some s => s ≠ ""

/-- `get_member_identifier`: `--user` is checked first, then
`--service-account`; otherwise the caller's own resolved identity is used
(`none` meaning resolution failed, a fatal exit). -/
def get_member_identifier (user_email service_account : Option String)
    (current_user : Option String) : Option String :=
  if truthy user_email then some ("user:" ++ user_email.getD "")
  else if truthy service_account then
    some ("serviceAccount:" ++ service_account.getD "")
  else current_user

/-- A project record built by `get_all_projects` in `list-projects.py`. -/
structure Project where
  id : String
  name : String
  number : String
  deriving DecidableEq

/-- Inner loop of the lister's `get_all_projects` on one page: active projects
become records with defaults `UNNAMED` and `N/A` for missing fields. -/
def listerPageProjects (page : List ApiProject) : List Project :=
  (page.filter (fun p => p.lifecycleState == "ACTIVE")).map
    (fun p => { id := p.projectId, name := p.name.getD "UNNAMED",
                number := p.projectNumber.getD "N/A" })

/-- The lister's pagination loop. -/
def collectLister (pages : List (List ApiProject)) : List Project :=
  match pages with
  | [] => []
  | page :: rest => listerPageProjects page ++ collectLister rest

instance : DecidableRel (fun a b : Project => a.id ≤ b.id) :=
  fun a b => inferInstanceAs (Decidable (a.id ≤ b.id))

instance : IsTotal Project (fun a b => a.id ≤ b.id) :=
  ⟨fun a b => le_total a.id b.id⟩

instance : IsTrans Project (fun a b => a.id ≤ b.id) :=
  ⟨fun _ _ _ hab hbc => le_trans hab hbc⟩

/-- `get_all_projects` in `list-projects.py`: collect active projects over all
pages, then `sorted(projects, key=lambda p: p['id'])`. -/
def lister_get_all_projects (pages : List (List ApiProject)) : List Project :=
  List.insertionSort (fun a b => a.id ≤ b.id) (collectLister pages)

/-- `filter_projects` in `list-projects.py`; `re.search(pat, id, IGNORECASE)`
is abstracted as the match predicate `m`.  A falsy (absent or empty) pattern
skips its test, the exclude test runs first, and each project lands in exactly
one of the two output lists, in input order. -/
def filter_projects (m : String → String → Bool) (projects : List Project)
    (include_pattern exclude_pattern : Option String) :
    List Project × List Project :=
  match projects with
  | [] => ([], [])
  | p :: ps =>
    let rest := filter_projects m ps include_pattern exclude_pattern
    if truthy exclude_pattern && m (exclude_pattern.getD "") p.id then
      (rest.1, p :: rest.2)
    else if truthy include_pattern && !m (include_pattern.getD "") p.id then
      (rest.1, p :: rest.2)
    else
      (p :: rest.1, rest.2)

/-- The spec's keep condition: not excluded, and, when an include pattern is
set, matching it. -/
def keepsProject (m : String → String → Bool)
    (include_pattern exclude_pattern : Option String) (pid : String) : Bool :=
  !(truthy exclude_pattern && m (exclude_pattern.getD "") pid)
    && (!truthy include_pattern || m (include_pattern.getD "") pid)

/-- Number of bindings of the policy carrying the given role. -/
def roleCount (policy : Policy) (role : String) : Nat :=
  policy.countP (fun b => b.role == role)

/-- Total number of occurrences of `member` across the member lists of the
bindings carrying `role`. -/
def memberCountForRole (policy : Policy) (role member : String) : Nat :=
  match policy with
  | [] => 0
  | b :: bs =>
    (if b.role == role then b.members.count member else 0)
      + memberCountForRole bs role member

/-! ### Helper lemmas -/

lemma addMember_role (b : Binding) (m : String) : (addMember b m).role = b.role := by
  unfold addMember
  split <;> rfl

lemma addMember_mem (b : Binding) (m : String) : m ∈ (addMember b m).members := by
  unfold addMember
  by_cases h : b.members.contains m
  · simp only [h, if_pos]
    exact List.elem_iff.mp h
  · simp only [h, if_neg]
    simp

lemma hasRole_iff (p : Policy) (m r : String) :
    hasRole p m r = true ↔ ∃ b ∈ p, b.role = r ∧ m ∈ b.members := by
  simp [hasRole]

lemma hasRole_false_iff (p : Policy) (m r : String) :
    hasRole p m r = false ↔ ∀ b ∈ p, b.role = r → m ∉ b.members := by
  rw [← Bool.not_eq_true, hasRole_iff]
  simp

lemma hasRole_addBinding (p : Policy) (m r : String) :
    hasRole (addBinding p m r) m r = true := by
  rw [hasRole_iff]
  induction p with
  | nil =>
    exact ⟨{ role := r, members := [m] }, by simp [addBinding], rfl, by simp⟩
  | cons b bs ih =>
    by_cases hb : b.role == r
    · refine ⟨addMember b m, ?_, ?_, addMember_mem b m⟩
      · simp [addBinding, hb]
      · rw [addMember_role]
        exact beq_iff_eq.mp hb
    · obtain ⟨x, hx, hxr, hxm⟩ := ih
      exact ⟨x, by simp [addBinding, hb, hx], hxr, hxm⟩

/-- With no API faults and no dry-run/check-only flag, a task either reports
`already_granted` (principal already present) or performs the merge and write. -/
lemma grant_noerr (p : Policy) (m r : String) :
    grant_iam_permission ⟨false, false, false⟩ false false p m r =
      if hasRole p m r then
        { status := .already_granted, policy := p, writeCalled := false }
      else
        { status := .granted, policy := addBinding p m r, writeCalled := true } := by
  unfold grant_iam_permission check_permission
  cases h : hasRole p m r <;> simp [h]

lemma memberCountForRole_eq_zero (p : Policy) (m r : String)
    (h : ∀ b ∈ p, b.role = r → m ∉ b.members) : memberCountForRole p r m = 0 := by
  induction p with
  | nil => rfl
  | cons b bs ih =>
    simp only [memberCountForRole]
    rw [ih (fun x hx => h x (List.mem_cons_of_mem b hx))]
    by_cases hb : b.role == r
    · have hmem : m ∉ b.members := h b (List.mem_cons_self b bs) (beq_iff_eq.mp hb)
      simp [hb, List.count_eq_zero.mpr hmem]
    · simp [hb]

lemma memberCountForRole_addBinding (p : Policy) (m r : String)
    (h : ∀ b ∈ p, b.role = r → m ∉ b.members) :
    memberCountForRole (addBinding p m r) r m = 1 := by
  induction p with
  | nil => simp [addBinding, memberCountForRole]
  | cons b bs ih =>
    have htail : ∀ x ∈ bs, x.role = r → m ∉ x.members :=
      fun x hx => h x (List.mem_cons_of_mem b hx)
    by_cases hb : b.role == r
    · have hmem : m ∉ b.members := h b (List.mem_cons_self b bs) (beq_iff_eq.mp hb)
      have hadd : (addMember b m).members = b.members ++ [m] := by
        unfold addMember
        simp [List.elem_iff, hmem]
      simp only [addBinding, hb, if_pos, memberCountForRole]
      rw [memberCountForRole_eq_zero bs m r htail]
      simp [addMember_role, hb, hadd, List.count_append, List.count_eq_zero.mpr hmem]
    · simp only [addBinding, hb, Bool.false_eq_true, if_false, memberCountForRole]
      simp [hb, ih htail]

lemma roleCount_addBinding_same (p : Policy) (m r : String) :
    roleCount (addBinding p m r) r = max (roleCount p r) 1 := by
  induction p with
  | nil => simp [addBinding, roleCount, List.countP_cons]
  | cons b bs ih =>
    by_cases hb : b.role == r
    · simp only [addBinding, hb, if_pos]
      simp only [roleCount, List.countP_cons] at ih ⊢
      simp [addMember_role, hb]
    · simp only [addBinding, hb, Bool.false_eq_true, if_false]
      simp only [roleCount, List.countP_cons] at ih ⊢
      simp [hb, ih]

lemma roleCount_addBinding_other (p : Policy) (m r r2 : String) (h : r2 ≠ r) :
    roleCount (addBinding p m r) r2 = roleCount p r2 := by
  induction p with
  | nil =>
    simp [addBinding, roleCount, List.countP_cons]
    exact Ne.symm h
  | cons b bs ih =>
    by_cases hb : b.role == r
    · simp only [addBinding, hb, if_pos]
      simp [roleCount, List.countP_cons, addMember_role]
    · simp only [addBinding, hb, Bool.false_eq_true, if_false]
      simp only [roleCount, List.countP_cons] at ih ⊢
      simp [ih]

lemma addBinding_of_absent (p : Policy) (m r : String)
    (h : ∀ b ∈ p, b.role ≠ r) :
    addBinding p m r = p ++ [{ role := r, members := [m] }] := by
  induction p with
  | nil => rfl
  | cons b bs ih =>
    have hb : (b.role == r) = false := by
      simp [h b (List.mem_cons_self b bs)]
    simp only [addBinding, hb, Bool.false_eq_true, if_false]
    simp [ih (fun x hx => h x (List.mem_cons_of_mem b hx))]

lemma addBinding_length_of_present (p : Policy) (m r : String)
    (h : ∃ b ∈ p, b.role = r) :
    (addBinding p m r).length = p.length := by
  induction p with
  | nil => simp at h
  | cons b bs ih =>
    by_cases hb : b.role == r
    · simp [addBinding, hb]
    · simp only [addBinding, hb, Bool.false_eq_true, if_false]
      obtain ⟨x, hx, hxr⟩ := h
      rcases List.mem_cons.mp hx with hxb | hxbs
      · subst hxb
        exact absurd (beq_iff_eq.mpr hxr) (by simp [hb])
      · simp [ih ⟨x, hxbs, hxr⟩]

lemma statusCount_total (rs : List GrantResult) :
    statusCount .granted rs + statusCount .already_granted rs
      + statusCount .would_grant rs + statusCount .failed rs = rs.length := by
  induction rs with
  | nil => rfl
  | cons g gs ih =>
    simp only [statusCount, List.countP_cons, List.length_cons] at ih ⊢
    cases h : g.status <;> simp [h] <;> omega

lemma filter_projects_eq (m : String → String → Bool) (ps : List Project)
    (ip ep : Option String) :
    filter_projects m ps ip ep =
      (ps.filter (fun p => keepsProject m ip ep p.id),
       ps.filter (fun p => !keepsProject m ip ep p.id)) := by
  induction ps with
  | nil => rfl
  | cons p ps ih =>
    have hk : keepsProject m ip ep p.id =
        (!(truthy ep && m (ep.getD "") p.id)
          && !(truthy ip && !m (ip.getD "") p.id)) := by
      simp [keepsProject, Bool.not_and, Bool.not_not]
    cases he : (truthy ep && m (ep.getD "") p.id)
      <;> cases hi : (truthy ip && !m (ip.getD "") p.id)
      <;> simp [filter_projects, ih, List.filter_cons, hk, he, hi]

/-! ### Claims -/

/-- C1 (code-bug exhibit): when the `getIamPolicy` call inside
`check_permission` errors while the later re-read and write succeed, the task
does not report `failed` with the binding step skipped, as the spec requires:
it falls through to the read-modify-write, mutates the policy, and reports
`granted` with a write issued. -/
theorem C1_failed_check_falls_through :
    grant_iam_permission ⟨true, false, false⟩ false false [] "user:alice" "roles/viewer"
      = { status := Status.granted,
          policy := [{ role := "roles/viewer", members := ["user:alice"] }],
          writeCalled := true } := by
  rfl

/-- C2 (counterexample): declining the confirmation prompt in a mutating run
makes the process exit with status zero (`sys.exit(0)`), not a non-zero
status as the claim states. -/
theorem C2_counterexample :
    main_flow (fun _ => ⟨false, false, false⟩) (fun _ => []) false false "no"
      ["p1"] "user:alice" "roles/viewer" = Except.error 0 := by
  rfl

/-- C2 (amended): when the operator declines the interactive confirmation
prompt in a non-dry-run, non-check-only run, the granter aborts immediately,
no per-project task runs and no write is issued, and the process exits with
status zero. -/
theorem C2_decline_aborts (oF : String → Oracle) (pF : String → Policy)
    (response : String) (projects : List String) (member role : String)
    (hne : projects ≠ []) (hresp : pyLower response ≠ "yes") :
    main_flow oF pF false false response projects member role = Except.error 0
    ∧ writesIssued (main_flow oF pF false false response projects member role)
        = false := by
  have hempty : projects.isEmpty = false := by
    cases projects with
    | nil => exact absurd rfl hne
    | cons a l => rfl
  have h1 : main_flow oF pF false false response projects member role
      = Except.error 0 := by
    simp [main_flow, hempty, hresp]
  exact ⟨h1, by rw [h1]; rfl⟩

/-- C2 (witness): concrete declined run. -/
theorem C2_decline_aborts_w :
    (["p1"] : List String) ≠ [] ∧ pyLower "no" ≠ "yes"
    ∧ (main_flow (fun _ => ⟨false, false, false⟩) (fun _ => []) false false "no"
          ["p1"] "user:alice" "roles/viewer" = Except.error 0
       ∧ writesIssued (main_flow (fun _ => ⟨false, false, false⟩) (fun _ => [])
            false false "no" ["p1"] "user:alice" "roles/viewer") = false) :=
  ⟨by decide, by decide,
    C2_decline_aborts (fun _ => ⟨false, false, false⟩) (fun _ => []) "no"
      ["p1"] "user:alice" "roles/viewer" (by decide) (by decide)⟩

/-- C3 (counterexample): the enumerator does not deduplicate: a file listing
the same identifier twice yields it twice (and in file order, not sorted). -/
theorem C3_counterexample :
    get_projects_from_file ["proj-b", "proj-a", "proj-b"]
        = ["proj-b", "proj-a", "proj-b"]
    ∧ ¬ (get_projects_from_file ["proj-b", "proj-a", "proj-b"]).Nodup := by
  exact ⟨by rfl, by decide⟩

/-- C3 (amended): the remote-listing path of both tools returns a
lexicographically sorted permutation of the collected active projects
(multiplicities kept, no deduplication), while the file path returns exactly
the stripped non-empty lines in file order: a sublist of the stripped lines,
every returned entry non-empty, an empty file yielding nothing, and each
further line contributing its stripped form exactly when that is non-empty:
neither sorted nor deduplicated. -/
theorem C3_enumerators (pages : List (List ApiProject)) (lines : List String) :
    List.Sorted (fun a b => a ≤ b) (get_all_projects pages)
    ∧ (get_all_projects pages).Perm (collectActive pages)
    ∧ List.Sorted (fun a b => a.id ≤ b.id) (lister_get_all_projects pages)
    ∧ (lister_get_all_projects pages).Perm (collectLister pages)
    ∧ (get_projects_from_file lines).Sublist (lines.map pyStrip)
    ∧ (∀ s ∈ get_projects_from_file lines, s ≠ "")
    ∧ get_projects_from_file ([] : List String) = []
    ∧ ∀ l ls, get_projects_from_file (l :: ls) =
        if pyStrip l = "" then get_projects_from_file ls
        else pyStrip l :: get_projects_from_file ls := by
  refine ⟨List.sorted_insertionSort _ _, List.perm_insertionSort _ _,
    List.sorted_insertionSort _ _, List.perm_insertionSort _ _,
    List.filter_sublist _, ?_, rfl, ?_⟩
  · intro s hs
    simp only [get_projects_from_file, List.mem_filter] at hs
    simpa using hs.2
  · intro l ls
    by_cases h : pyStrip l = "" <;>
      simp [get_projects_from_file, List.filter_cons, h]

/-- C4 (counterexample): a comment line is not ignored: it is stripped and
returned like any other non-empty line. -/
theorem C4_counterexample :
    get_projects_from_file ["# comment", "proj-a"] = ["# comment", "proj-a"]
    ∧ get_projects_from_file ["# comment", "proj-a"] ≠ ["proj-a"] := by
  exact ⟨by rfl, by decide⟩

/-- C4 (amended): reading the project list ignores blank (whitespace-only)
lines and returns the remaining lines stripped of surrounding whitespace;
comment lines are not treated specially.  In particular the file with lines
`proj-a`, ``, `proj-b` yields `["proj-a", "proj-b"]`, and deleting any
whitespace-only line leaves the result unchanged. -/
theorem C4_blank_lines_ignored (pre post : List String) (w : String)
    (hw : pyStrip w = "") :
    get_projects_from_file ["proj-a", "", "proj-b"] = ["proj-a", "proj-b"]
    ∧ get_projects_from_file (pre ++ w :: post)
        = get_projects_from_file (pre ++ post) := by
  constructor
  · rfl
  · simp [get_projects_from_file, hw]

/-- C4 (witness): concrete file with a whitespace-only line. -/
theorem C4_blank_lines_ignored_w :
    pyStrip " " = ""
    ∧ (get_projects_from_file ["proj-a", "", "proj-b"] = ["proj-a", "proj-b"]
       ∧ get_projects_from_file (["x"] ++ " " :: ["y"])
           = get_projects_from_file (["x"] ++ ["y"])) :=
  ⟨by decide, C4_blank_lines_ignored ["x"] ["y"] " " (by decide)⟩

/-- C5: the grant operation is idempotent: with no API faults, when the first
run reports `granted`, a second run on the resulting policy reports
`already_granted`, leaves the policy unchanged, and issues no write; the
granted policy holds exactly one member entry for the principal under the
role, and the number of bindings for the role grew only from zero to one. -/
theorem C5_grant_idempotent (p : Policy) (member role : String)
    (h : (grant_iam_permission ⟨false, false, false⟩ false false p member role).status
        = Status.granted) :
    grant_iam_permission ⟨false, false, false⟩ false false
        (grant_iam_permission ⟨false, false, false⟩ false false p member role).policy
        member role
      = { status := Status.already_granted,
          policy := (grant_iam_permission ⟨false, false, false⟩
              false false p member role).policy,
          writeCalled := false }
    ∧ memberCountForRole
        (grant_iam_permission ⟨false, false, false⟩ false false p member role).policy
        role member = 1
    ∧ roleCount
        (grant_iam_permission ⟨false, false, false⟩ false false p member role).policy
        role = max (roleCount p role) 1 := by
  have hfalse : hasRole p member role = false := by
    cases hc : hasRole p member role
    · rfl
    · rw [grant_noerr p member role, hc] at h
      simp at h
  have hpol : (grant_iam_permission ⟨false, false, false⟩
      false false p member role).policy = addBinding p member role := by
    rw [grant_noerr p member role, hfalse]
    rfl
  rw [hpol]
  refine ⟨?_, ?_, roleCount_addBinding_same p member role⟩
  · rw [grant_noerr, hasRole_addBinding]
    rfl
  · exact memberCountForRole_addBinding p member role
      ((hasRole_false_iff p member role).mp hfalse)

/-- C5 (witness): concrete grant on an empty policy, then a repeat. -/
theorem C5_grant_idempotent_w :
    (grant_iam_permission ⟨false, false, false⟩ false false []
        "user:alice" "roles/viewer").status = Status.granted
    ∧ (grant_iam_permission ⟨false, false, false⟩ false false
          (grant_iam_permission ⟨false, false, false⟩ false false []
            "user:alice" "roles/viewer").policy "user:alice" "roles/viewer"
        = { status := Status.already_granted,
            policy := (grant_iam_permission ⟨false, false, false⟩ false false []
                "user:alice" "roles/viewer").policy,
            writeCalled := false }
       ∧ memberCountForRole (grant_iam_permission ⟨false, false, false⟩
            false false [] "user:alice" "roles/viewer").policy
            "roles/viewer" "user:alice" = 1
       ∧ roleCount (grant_iam_permission ⟨false, false, false⟩
            false false [] "user:alice" "roles/viewer").policy
            "roles/viewer" = max (roleCount [] "roles/viewer") 1) :=
  ⟨by rfl, C5_grant_idempotent [] "user:alice" "roles/viewer" (by rfl)⟩

/-- C6: the pattern filter checks exclusion first, keeps a project exactly when
it is not excluded and (no include pattern is set or the include pattern
matches), preserves input order (both outputs are filters of the input), sends
every project matching a set exclude pattern to the excluded list regardless
of the include pattern, and with no patterns set returns the full input as
kept and nothing excluded. -/
theorem C6_filter_spec (m : String → String → Bool) (ps : List Project)
    (ip ep : Option String) :
    (filter_projects m ps ip ep).1
        = ps.filter (fun p => keepsProject m ip ep p.id)
    ∧ (filter_projects m ps ip ep).2
        = ps.filter (fun p => !keepsProject m ip ep p.id)
    ∧ filter_projects m ps none none = (ps, [])
    ∧ ∀ p ∈ ps, truthy ep && m (ep.getD "") p.id →
        p ∈ (filter_projects m ps ip ep).2 := by
  refine ⟨by rw [filter_projects_eq], by rw [filter_projects_eq], ?_, ?_⟩
  · rw [filter_projects_eq]
    simp [keepsProject, truthy]
  · intro p hp hcond
    have hkeep : keepsProject m ip ep p.id = false := by
      simp [keepsProject, hcond]
    rw [filter_projects_eq]
    simp [List.mem_filter, hp, hkeep]

/-- C7: after a full run of the executor every input project has exactly one
terminal outcome: the `granted`, `already_granted`, `would_grant` and `failed`
counts sum to the number of input projects. -/
theorem C7_outcome_sum (oF : String → Oracle) (pF : String → Policy)
    (dry_run check_only : Bool) (projects : List String) (member role : String) :
    statusCount .granted
        (process_projects oF pF dry_run check_only projects member role)
      + statusCount .already_granted
        (process_projects oF pF dry_run check_only projects member role)
      + statusCount .would_grant
        (process_projects oF pF dry_run check_only projects member role)
      + statusCount .failed
        (process_projects oF pF dry_run check_only projects member role)
      = projects.length := by
  rw [statusCount_total]
  simp [process_projects]

/-- C8: in dry-run or check-only mode no task reports `granted` and no
`setIamPolicy` call is issued, and whenever the principal lacks the role the
outcome is `would_grant`. -/
theorem C8_dry_check_safe (o : Oracle) (dry_run check_only : Bool) (p : Policy)
    (member role : String) (h : dry_run = true ∨ check_only = true) :
    (grant_iam_permission o dry_run check_only p member role).status
        ≠ Status.granted
    ∧ (grant_iam_permission o dry_run check_only p member role).writeCalled
        = false
    ∧ (hasRole p member role = false →
        (grant_iam_permission o dry_run check_only p member role).status
          = Status.would_grant) := by
  have hd : (dry_run || check_only) = true := by
    rcases h with h | h <;> simp [h]
  unfold grant_iam_permission check_permission
  by_cases hc : o.checkErr
  · simp [hc, hd]
  · by_cases hr : hasRole p member role <;> simp [hc, hr, hd]

/-- C8 (witness): concrete dry run on an empty policy. -/
theorem C8_dry_check_safe_w :
    (true = true ∨ false = true)
    ∧ ((grant_iam_permission ⟨false, false, false⟩ true false []
          "user:alice" "roles/viewer").status ≠ Status.granted
       ∧ (grant_iam_permission ⟨false, false, false⟩ true false []
            "user:alice" "roles/viewer").writeCalled = false
       ∧ (hasRole [] "user:alice" "roles/viewer" = false →
            (grant_iam_permission ⟨false, false, false⟩ true false []
              "user:alice" "roles/viewer").status = Status.would_grant)) :=
  ⟨Or.inl rfl, C8_dry_check_safe ⟨false, false, false⟩ true false []
    "user:alice" "roles/viewer" (Or.inl rfl)⟩

/-- C9: on a policy in which every role appears in at most one binding, the
policy update merges into the existing binding for the target role when one is
present (binding count unchanged) and appends a single fresh binding otherwise,
so the written policy again has at most one binding per role. -/
theorem C9_binding_merge (p : Policy) (member role : String)
    (h : ∀ r2, roleCount p r2 ≤ 1) :
    (∀ r2, roleCount (addBinding p member role) r2 ≤ 1)
    ∧ ((∃ b ∈ p, b.role = role) →
        (addBinding p member role).length = p.length)
    ∧ ((∀ b ∈ p, b.role ≠ role) →
        addBinding p member role
          = p ++ [{ role := role, members := [member] }]) := by
  refine ⟨fun r2 => ?_, addBinding_length_of_present p member role,
    addBinding_of_absent p member role⟩
  by_cases hr : r2 = role
  · subst hr
    rw [roleCount_addBinding_same]
    have := h r2
    omega
  · rw [roleCount_addBinding_other p member role r2 hr]
    exact h r2

/-- C9 (witness): merge into a one-binding policy carrying a different role. -/
theorem C9_binding_merge_w :
    (∀ r2, roleCount [{ role := "roles/editor", members := ["user:bob"] }] r2 ≤ 1)
    ∧ ((∀ r2, roleCount (addBinding
          [{ role := "roles/editor", members := ["user:bob"] }]
          "user:alice" "roles/viewer") r2 ≤ 1)
       ∧ ((∃ b ∈ ([{ role := "roles/editor", members := ["user:bob"] }] : Policy),
              b.role = "roles/viewer") →
            (addBinding [{ role := "roles/editor", members := ["user:bob"] }]
              "user:alice" "roles/viewer").length
              = [({ role := "roles/editor", members := ["user:bob"] } : Binding)].length)
       ∧ ((∀ b ∈ ([{ role := "roles/editor", members := ["user:bob"] }] : Policy),
              b.role ≠ "roles/viewer") →
            addBinding [{ role := "roles/editor", members := ["user:bob"] }]
              "user:alice" "roles/viewer"
              = [{ role := "roles/editor", members := ["user:bob"] }]
                ++ [{ role := "roles/viewer", members := ["user:alice"] }])) := by
  have hhyp : ∀ r2,
      roleCount [{ role := "roles/editor", members := ["user:bob"] }] r2 ≤ 1 := by
    intro r2
    simp [roleCount, List.countP_cons]
    split <;> simp
  exact ⟨hhyp, C9_binding_merge _ "user:alice" "roles/viewer" hhyp⟩

/-- C10: `--user` takes precedence: when both a user email and a service
account are supplied the member is `user:<email>` and the service account is
ignored; with only a service account it is `serviceAccount:<sa>`; the caller's
own resolved identity is used exactly when neither is supplied. -/
theorem C10_user_precedence (u sa : String) (cur : Option String)
    (hu : u ≠ "") (hsa : sa ≠ "") :
    get_member_identifier (some u) (some sa) cur = some ("user:" ++ u)
    ∧ get_member_identifier none (some sa) cur = some ("serviceAccount:" ++ sa)
    ∧ get_member_identifier none none cur = cur := by
  refine ⟨?_, ?_, rfl⟩
  · simp [get_member_identifier, truthy, hu]
  · simp [get_member_identifier, truthy, hsa]

/-- C10 (witness): concrete member resolution. -/
theorem C10_user_precedence_w :
    ("alice@example.com" : String) ≠ ""
    ∧ ("sa@proj.iam.gserviceaccount.com" : String) ≠ ""
    ∧ (get_member_identifier (some "alice@example.com")
          (some "sa@proj.iam.gserviceaccount.com") (some "user:me@example.com")
        = some ("user:" ++ "alice@example.com")
       ∧ get_member_identifier none (some "sa@proj.iam.gserviceaccount.com")
          (some "user:me@example.com")
        = some ("serviceAccount:" ++ "sa@proj.iam.gserviceaccount.com")
       ∧ get_member_identifier none none (some "user:me@example.com")
        = some "user:me@example.com") :=
  ⟨by decide, by decide,
    C10_user_precedence "alice@example.com" "sa@proj.iam.gserviceaccount.com"
      (some "user:me@example.com") (by decide) (by decide)⟩

end GcpHelper
